import Mathlib

/-!
Verification of the TCP port scanner (src/main.py) against its specification.

The Python source is shallowly embedded: pure string/list manipulation is
translated directly; the asyncio I/O layer is modelled by an explicit
environment (`ConnEnv`) recording the outcome of each fallible operation of
one probe, together with a trace of the I/O requests the probe issues
(`NetEvent`).  Durations are measured in milliseconds (the 0.5s and
1.0s banner timeouts become 500 and 1000).  Character-level functions model
CPython semantics on ASCII input.
-/

namespace PortScanner

/-! ### Port specification parsing (`parse_ports`, src/main.py lines 24-47) -/

/-- Characters stripped by Python `str.strip()` (ASCII whitespace). -/
def isPySpace (c : Char) : Bool :=
  c == ' ' || c == '\t' || c == '\n' || c == '\r' || c == '\x0b' || c == '\x0c'

/-- Python `str.strip()` on a character list. -/
def pyStrip (l : List Char) : List Char :=
  ((l.dropWhile isPySpace).reverse.dropWhile isPySpace).reverse

/-- Python `str.strip()` on a string. -/
def pyStripStr (s : String) : String :=
  String.mk (pyStrip s.data)

/-- Python `str.split(',')`: splits at every comma; `"".split(',') = ['']`. -/
def splitComma : List Char → List (List Char)
  | [] => [[]]
  | c :: cs =>
    if c = ',' then [] :: splitComma cs
    else
      match splitComma cs with
      | [] => [[c]]
      | t :: ts => (c :: t) :: ts

/-- Python `str.split('-', 1)`: the pieces before and after the first dash.
Only used on inputs containing a dash, where it returns both pieces. -/
def splitDash : List Char → List Char × List Char
  | [] => ([], [])
  | c :: cs =>
    if c = '-' then ([], cs)
    else
      let (a, b) := splitDash cs
      (c :: a, b)

/-- Value of an ASCII digit. -/
def digitVal (c : Char) : ℕ := c.toNat - 48

/-- Digit run of a Python integer literal: digits with single underscores
allowed strictly between digits. -/
def pyDigitsAux : ℕ → List Char → Option ℕ
  | acc, [] => some acc
  | acc, '_' :: c :: cs => if c.isDigit then pyDigitsAux (acc * 10 + digitVal c) cs else none
  | _, ['_'] => none
  | acc, c :: cs => if c.isDigit then pyDigitsAux (acc * 10 + digitVal c) cs else none

/-- A nonempty digit run must start with a digit (no leading underscore). -/
def pyDigitsStart : List Char → Option ℕ
  | [] => none
  | c :: cs => if c.isDigit then pyDigitsAux (digitVal c) cs else none

/-- Python `int()` after whitespace stripping: optional sign, then digits. -/
def pyIntCore : List Char → Option ℤ
  | '+' :: cs => (pyDigitsStart cs).map (fun n => (n : ℤ))
  | '-' :: cs => (pyDigitsStart cs).map (fun n => -(n : ℤ))
  | cs => (pyDigitsStart cs).map (fun n => (n : ℤ))

/-- Python `int(s)` for a string `s` (ASCII model): strips surrounding
whitespace, accepts an optional sign and a digit run. -/
def pyInt (l : List Char) : Option ℤ :=
  pyIntCore (pyStrip l)

/-- `[p.strip() for p in ports_str.split(',') if p.strip()]`. -/
def tokens (s : String) : List (List Char) :=
  ((splitComma s.data).map pyStrip).filter (fun t => !t.isEmpty)

/-- One iteration of the `parse_ports` loop body: the ports contributed by a
single token, or the error raised for it.  A token containing `-` is a range
`A-B` (`int(A)`, `int(B)`, must satisfy `1 ≤ A`, `B ≤ 65535`, `A ≤ B`,
contributing `range(A, B+1)`); otherwise a single port in `[1, 65535]`. -/
def parseToken (part : List Char) : Except String (List ℕ) :=
  if part.contains '-' then
    match pyInt (splitDash part).1, pyInt (splitDash part).2 with
    | some s, some e =>
      if s < 1 ∨ e > 65535 ∨ s > e then
        .error ("Invalid port range: " ++ String.mk part)
      else
        .ok (List.range' s.toNat (e.toNat - s.toNat + 1))
    | _, _ => .error ("Invalid port range: " ++ String.mk part)
  else
    match pyInt part with
    | some p =>
      if p < 1 ∨ p > 65535 then .error ("Invalid port: " ++ String.mk part)
      else .ok [p.toNat]
    | none => .error ("Invalid port: " ++ String.mk part)

/-- The error message `parse_ports` raises for an offending token. -/
def tokenMsg (part : List Char) : String :=
  if part.contains '-' then "Invalid port range: " ++ String.mk part
  else "Invalid port: " ++ String.mk part

/-- `true` when `parse_ports` rejects this token. -/
def tokenBad (t : List Char) : Bool :=
  match parseToken t with
  | .ok _ => false
  | .error _ => true

/-- The ports a valid token contributes (empty for an invalid one). -/
def tokenPorts (t : List Char) : List ℕ :=
  match parseToken t with
  | .ok ps => ps
  | .error _ => []

/-- Concatenation of the contributions of a token list. -/
def concatPorts (ts : List (List Char)) : List ℕ :=
  ts.foldr (fun t acc => tokenPorts t ++ acc) []

/-- Insertion into a strictly sorted duplicate-free list, dropping
duplicates: the building block modelling the Python idiom `sorted(set(...))`. -/
def insertSorted (p : ℕ) : List ℕ → List ℕ
  | [] => [p]
  | q :: qs =>
    if p < q then p :: q :: qs
    else if p = q then q :: qs
    else q :: insertSorted p qs

/-- `sorted(set(l))`: the strictly increasing enumeration of the elements
of `l`. -/
def sortDedup (l : List ℕ) : List ℕ :=
  l.foldr insertSorted []

/-- The `parse_ports` loop over the comma tokens.  The Python source
accumulates the ports of each token into a set and returns `sorted(ports)`;
we accumulate the (possibly duplicated) contributions into a list and apply
`sortDedup` at the end, which yields the same sorted sequence. -/
def parseLoop : List (List Char) → List ℕ → Except String (List ℕ)
  | [], acc => .ok acc
  | t :: ts, acc =>
    match parseToken t with
    | .ok ps => parseLoop ts (acc ++ ps)
    | .error e => .error e

/-- `parse_ports` (src/main.py lines 24-47): parse a ports string like
`"1-1024,8080"` into a sorted list, or raise `ArgumentTypeError` (modelled
as `Except.error` carrying the message). -/
def parse_ports (ports_str : String) : Except String (List ℕ) :=
  match parseLoop (tokens ports_str) [] with
  | .ok acc => .ok (sortDedup acc)
  | .error e => .error e

/-! ### The connection prober (`try_connect`, src/main.py lines 50-86) -/

/-- `HTTP_PORTS = {80, 8080, 8000, 443, 8443}` (src/main.py line 56). -/
def HTTP_PORTS : Finset ℕ := {80, 8080, 8000, 443, 8443}

/-- Outcome of one probe: the tuple `(port, is_open, banner_text)`. -/
structure ProbeResult where
  port : ℕ
  is_open : Bool
  banner_text : String
deriving DecidableEq, Repr

/-- Outcome of each fallible I/O operation of one probe attempt.
`connectOk`: the awaited `open_connection` succeeds within the timeout
(refusal, timeout and any other transport error are `false`).
`drainOk`: the banner write flushes within its 0.5s bound.
`readData`: `some d` when the banner read returns the bytes `d` (decoded
with replacement, hence modelled as text), `none` when it times out or
fails.  `waitClosedOk`: whether `writer.wait_closed()` raises.  The asyncio
`StreamWriter.close()` method only schedules the close and does not raise,
so it has no failure flag; `wait_closed` can surface transport errors, which
is why the source wraps exactly it in `try/except: pass`. -/
structure ConnEnv where
  connectOk : Bool
  drainOk : Bool
  readData : Option String
  waitClosedOk : Bool

/-- The I/O requests a probe issues, with their parameters.  Durations are
in milliseconds. -/
inductive NetEvent where
  | connect (host : String) (port : ℕ) (timeoutMs : ℕ)
  | write (data : String)
  | drain (timeoutMs : ℕ)
  | read (maxBytes : ℕ) (timeoutMs : ℕ)
  | close
  | waitClosed
deriving DecidableEq, Repr

/-- The probe request of src/main.py line 65:
`f"GET / HTTP/1.0\r\nHost: {host}\r\nUser-Agent: tcp-scanner\r\n\r\n"`. -/
def httpRequest (host : String) : String :=
  "GET / HTTP/1.0\r\nHost: " ++ host ++ "\r\nUser-Agent: tcp-scanner\r\n\r\n"

/-- The banner read attempt (src/main.py lines 63-72), given a connected
socket: for an HTTP-like port, write the probe request, drain bounded by
0.5s, then read up to 2048 bytes bounded by 1.0s; otherwise passively read
up to 1024 bytes bounded by 0.5s.  Returns the received data (`none` when
any step fails) and the trace of issued operations. -/
def bannerRead (env : ConnEnv) (host : String) (port : ℕ) :
    Option String × List NetEvent :=
  if port ∈ HTTP_PORTS then
    if env.drainOk then
      (env.readData,
        [NetEvent.write (httpRequest host), NetEvent.drain 500, NetEvent.read 2048 1000])
    else
      (none, [NetEvent.write (httpRequest host), NetEvent.drain 500])
  else
    (env.readData, [NetEvent.read 1024 500])

/-- The banner text the probe ends up with (src/main.py lines 60-76):
empty unless banner collection is on, data was received and nonempty; any
failure inside the banner attempt is swallowed by the inner
`except Exception: btext = ""`. -/
def collectedBanner (env : ConnEnv) (host : String) (port : ℕ) (banner : Bool) : String :=
  if banner then
    match (bannerRead env host port).1 with
    | some data => if data = "" then "" else pyStripStr data
    | none => ""
  else ""

/-- `try_connect` (src/main.py lines 50-86): attempt a TCP connection to
`host:port` bounded by the timeout; every connect failure is absorbed into
`(port, False, "")` by the outer handlers; on success optionally attempt
the banner, close the writer and return `(port, True, btext)`.  The result
never depends on `waitClosedOk` because the source discards a
`wait_closed` failure with `except Exception: pass`. -/
def try_connect (env : ConnEnv) (host : String) (port : ℕ) (timeoutMs : ℕ)
    (banner : Bool) : ProbeResult × List NetEvent :=
  if env.connectOk then
    (⟨port, true, collectedBanner env host port banner⟩,
      NetEvent.connect host port timeoutMs ::
        (if banner then (bannerRead env host port).2 else []) ++
          [NetEvent.close, NetEvent.waitClosed])
  else
    (⟨port, false, ""⟩, [NetEvent.connect host port timeoutMs])

/-! ### The scan coordinator (`scan_host`, src/main.py lines 89-110) -/

/-- The open-port report line of src/main.py lines 106-109:
`f"{host}:{port} OPEN  (banner: {btext})"` when the banner is nonempty,
else `f"{host}:{port} OPEN"`. -/
def openLine (host : String) (r : ProbeResult) : String :=
  if r.banner_text = "" then
    host ++ ":" ++ toString r.port ++ " OPEN"
  else
    host ++ ":" ++ toString r.port ++ " OPEN  (banner: " ++ r.banner_text ++ ")"

/-- `scan_host` (src/main.py lines 89-110) as a function of the completion
order: `asyncio.as_completed` yields the probe results in the order the
tasks finish, which is some permutation of the scheduled ports; the loop
appends each result and prints a line for each open port as it arrives.
`envOf` gives the I/O environment of each port.  Returns the accumulated results
and the printed lines, both in completion order.  (The semaphore only
schedules the tasks and cannot alter results or lines; it is modelled
separately as the `CoordStep` transition system.  The defensive worker
`except` around `try_connect` is unreachable here because the embedded
`try_connect` is total.) -/
def scan_host (envOf : ℕ → ConnEnv) (host : String) (timeoutMs : ℕ) (banner : Bool) :
    List ℕ → List ProbeResult × List String
  | [] => ([], [])
  | p :: rest =>
    let res := (try_connect (envOf p) host p timeoutMs banner).1
    let pr := scan_host envOf host timeoutMs banner rest
    (res :: pr.1, (if res.is_open then [openLine host res] else []) ++ pr.2)

/-- `resolve_host` (src/main.py lines 113-120): `getaddrinfo` is modelled
as an oracle returning the first resolved address, or `none` when
resolution raises; on failure the original string is returned unchanged.
`main_async` (line 131-133) passes `resolve_host(host)`, not `host`, to
`scan_host`, so every probe — including the HTTP `Host` header it builds —
sees the resolved address. -/
def resolve_host (getaddrinfo : String → Option String) (host : String) : String :=
  match getaddrinfo host with
  | some addr => addr
  | none => host

/-! ### The concurrency limiter (src/main.py lines 90-99)

`scan_host` guards each worker with `asyncio.Semaphore(concurrency)`:
a task acquires one slot before `try_connect` and `async with` releases it
unconditionally on completion.  The admission protocol is modelled as a
transition system over the per-task phases; `sem` is the internal counter of
the semaphore. -/

/-- Phase of one probe task: `Pending → Admitted → Completed`
(`admitted` covers the whole in-flight window between acquiring the
semaphore slot and releasing it). -/
inductive TaskPhase where
  | pending
  | admitted
  | completed
deriving DecidableEq, Repr

/-- State of a `scan_host` run over `n` scheduled tasks. -/
structure CoordState (n : ℕ) where
  sem : ℕ
  phase : Fin n → TaskPhase

/-- Initial state: the semaphore counter holds the full concurrency limit,
every task is pending. -/
def initState (n conc : ℕ) : CoordState n :=
  ⟨conc, fun _ => TaskPhase.pending⟩

/-- Number of tasks currently between Admitted and Completed. -/
def inFlight {n : ℕ} (s : CoordState n) : ℕ :=
  (Finset.univ.filter fun i => s.phase i = TaskPhase.admitted).card

/-- The two scheduler transitions: a pending task acquires a slot
(`sem > 0`, decrementing the counter), and an admitted task completes
(releasing its slot, incrementing the counter).  No other transition
exists: no retries, no backward moves. -/
inductive CoordStep (n : ℕ) : CoordState n → CoordState n → Prop
  | acquire (s : CoordState n) (i : Fin n)
      (hp : s.phase i = TaskPhase.pending) (hs : 0 < s.sem) :
      CoordStep n s ⟨s.sem - 1, Function.update s.phase i TaskPhase.admitted⟩
  | release (s : CoordState n) (i : Fin n)
      (hp : s.phase i = TaskPhase.admitted) :
      CoordStep n s ⟨s.sem + 1, Function.update s.phase i TaskPhase.completed⟩

/-- The states a run with `n` tasks and concurrency limit `conc` can reach. -/
def Reaches (n conc : ℕ) (s : CoordState n) : Prop :=
  Relation.ReflTransGen (CoordStep n) (initState n conc) s

/-- Test fixture from §8 of the specification: a target on which exactly
port 22 accepts connections (and banner collection gets no data). -/
def onlyPort22Open : ℕ → ConnEnv :=
  fun p => ⟨p == 22, true, none, true⟩

/-! ### Lemmas about `sortDedup` -/

theorem mem_insertSorted (y p : ℕ) (l : List ℕ) :
    y ∈ insertSorted p l ↔ y = p ∨ y ∈ l := by
  induction l with
  | nil => simp [insertSorted]
  | cons q qs ih =>
    by_cases h1 : p < q
    · simp [insertSorted, h1]
    · by_cases h2 : p = q
      · subst h2
        have heq : insertSorted p (p :: qs) = p :: qs := by
          unfold insertSorted
          rw [if_neg h1, if_pos rfl]
        rw [heq, List.mem_cons]
        tauto
      · simp only [insertSorted, if_neg h1, if_neg h2, List.mem_cons, ih]
        tauto

theorem sorted_insertSorted (p : ℕ) {l : List ℕ} (h : l.Sorted (· < ·)) :
    (insertSorted p l).Sorted (· < ·) := by
  induction l with
  | nil => simp [insertSorted]
  | cons q qs ih =>
    rw [List.sorted_cons] at h
    obtain ⟨hq, hqs⟩ := h
    by_cases h1 : p < q
    · simp only [insertSorted, if_pos h1]
      rw [List.sorted_cons]
      refine ⟨?_, by rw [List.sorted_cons]; exact ⟨hq, hqs⟩⟩
      intro b hb
      rcases List.mem_cons.mp hb with rfl | hb
      · exact h1
      · exact h1.trans (hq b hb)
    · by_cases h2 : p = q
      · simp only [insertSorted, if_neg h1, if_pos h2]
        rw [List.sorted_cons]
        exact ⟨hq, hqs⟩
      · simp only [insertSorted, if_neg h1, if_neg h2]
        rw [List.sorted_cons]
        refine ⟨?_, ih hqs⟩
        intro b hb
        rcases (mem_insertSorted b p qs).mp hb with rfl | hb
        · omega
        · exact hq b hb

theorem sortDedup_sorted (l : List ℕ) : (sortDedup l).Sorted (· < ·) := by
  induction l with
  | nil => simp [sortDedup]
  | cons x xs ih => exact sorted_insertSorted x ih

theorem mem_sortDedup (y : ℕ) (l : List ℕ) : y ∈ sortDedup l ↔ y ∈ l := by
  induction l with
  | nil => simp [sortDedup]
  | cons x xs ih =>
    show y ∈ insertSorted x (sortDedup xs) ↔ _
    rw [mem_insertSorted, ih, List.mem_cons]

/-- Two strictly sorted lists with the same members are equal. -/
theorem sorted_mem_ext : ∀ {l₁ l₂ : List ℕ}, l₁.Sorted (· < ·) →
    l₂.Sorted (· < ·) → (∀ x, x ∈ l₁ ↔ x ∈ l₂) → l₁ = l₂ := by
  intro l₁
  induction l₁ with
  | nil =>
    intro l₂ _ _ hm
    cases l₂ with
    | nil => rfl
    | cons y ys => exact absurd ((hm y).mpr (List.mem_cons_self y ys)) (List.not_mem_nil y)
  | cons x xs ih =>
    intro l₂ h1 h2 hm
    cases l₂ with
    | nil => exact absurd ((hm x).mp (List.mem_cons_self x xs)) (List.not_mem_nil x)
    | cons y ys =>
      rw [List.sorted_cons] at h1 h2
      obtain ⟨hx, hxs⟩ := h1
      obtain ⟨hy, hys⟩ := h2
      have hxy : x = y := by
        have hx2 : x ∈ y :: ys := (hm x).mp (List.mem_cons_self x xs)
        have hy2 : y ∈ x :: xs := (hm y).mpr (List.mem_cons_self y ys)
        rcases List.mem_cons.mp hx2 with h | h
        · exact h
        · rcases List.mem_cons.mp hy2 with h' | h'
          · exact h'.symm
          · have hyx := hy x h
            have hxy' := hx y h'
            omega
      subst hxy
      have htails : ∀ z, z ∈ xs ↔ z ∈ ys := by
        intro z
        constructor
        · intro hz
          have hzx : x < z := hx z hz
          have hz2 : z ∈ x :: ys := (hm z).mp (List.mem_cons_of_mem x hz)
          rcases List.mem_cons.mp hz2 with rfl | h
          · omega
          · exact h
        · intro hz
          have hzy : x < z := hy z hz
          have hz2 : z ∈ x :: xs := (hm z).mpr (List.mem_cons_of_mem x hz)
          rcases List.mem_cons.mp hz2 with rfl | h
          · omega
          · exact h
      rw [ih hxs hys htails]

/-! ### Lemmas about the `parse_ports` loop -/

theorem concatPorts_nil : concatPorts [] = [] := rfl

theorem concatPorts_cons (t : List Char) (ts : List (List Char)) :
    concatPorts (t :: ts) = tokenPorts t ++ concatPorts ts := rfl

theorem mem_concatPorts (p : ℕ) : ∀ ts : List (List Char),
    p ∈ concatPorts ts ↔ ∃ t ∈ ts, p ∈ tokenPorts t := by
  intro ts
  induction ts with
  | nil => simp [concatPorts]
  | cons u us ih =>
    rw [concatPorts_cons, List.mem_append, ih]
    constructor
    · rintro (h | ⟨t, ht, hp⟩)
      · exact ⟨u, List.mem_cons_self u us, h⟩
      · exact ⟨t, List.mem_cons_of_mem u ht, hp⟩
    · rintro ⟨t, ht, hp⟩
      rcases List.mem_cons.mp ht with rfl | ht
      · exact Or.inl hp
      · exact Or.inr ⟨t, ht, hp⟩

theorem parseToken_ok_of_good {t : List Char} (h : tokenBad t = false) :
    parseToken t = .ok (tokenPorts t) := by
  unfold tokenBad at h
  cases hp : parseToken t with
  | error e => rw [hp] at h; simp at h
  | ok ps => simp [tokenPorts, hp]

theorem parseToken_error_msg {t : List Char} {m : String}
    (h : parseToken t = .error m) : m = tokenMsg t := by
  unfold parseToken at h
  unfold tokenMsg
  by_cases hc : t.contains '-'
  · rw [if_pos hc] at h
    rw [if_pos hc]
    split at h
    · split at h
      · simp only [Except.error.injEq] at h
        exact h.symm
      · exact absurd h (by simp)
    · simp only [Except.error.injEq] at h
      exact h.symm
  · rw [if_neg hc] at h
    rw [if_neg hc]
    split at h
    · split at h
      · simp only [Except.error.injEq] at h
        exact h.symm
      · exact absurd h (by simp)
    · simp only [Except.error.injEq] at h
      exact h.symm

theorem parseToken_mem_bounds {t : List Char} {ps : List ℕ}
    (h : parseToken t = .ok ps) : ∀ p ∈ ps, 1 ≤ p ∧ p ≤ 65535 := by
  unfold parseToken at h
  by_cases hc : t.contains '-'
  · rw [if_pos hc] at h
    split at h
    · split at h
      · exact absurd h (by simp)
      · simp only [Except.ok.injEq] at h
        subst h
        intro p hp
        rw [List.mem_range'_1] at hp
        rename_i s e hg
        push_neg at hg
        omega
    · exact absurd h (by simp)
  · rw [if_neg hc] at h
    split at h
    · split at h
      · exact absurd h (by simp)
      · simp only [Except.ok.injEq] at h
        subst h
        intro p hp
        rename_i q hg
        rw [List.mem_singleton] at hp
        subst hp
        push_neg at hg
        omega
    · exact absurd h (by simp)

theorem parseLoop_ok_of_good : ∀ (ts : List (List Char)) (acc : List ℕ),
    (∀ t ∈ ts, tokenBad t = false) →
    parseLoop ts acc = .ok (acc ++ concatPorts ts) := by
  intro ts
  induction ts with
  | nil => intro acc _; simp [parseLoop, concatPorts]
  | cons t ts ih =>
    intro acc hgood
    have ht : parseToken t = .ok (tokenPorts t) :=
      parseToken_ok_of_good (hgood t (List.mem_cons_self t ts))
    simp only [parseLoop, ht]
    rw [ih (acc ++ tokenPorts t) (fun u hu => hgood u (List.mem_cons_of_mem t hu))]
    rw [concatPorts_cons, List.append_assoc]

theorem parseLoop_error_of_bad : ∀ (ts : List (List Char)) (acc : List ℕ)
    (t : List Char), t ∈ ts → tokenBad t = true →
    ∃ m, parseLoop ts acc = .error m := by
  intro ts
  induction ts with
  | nil => intro acc t ht _; exact absurd ht (List.not_mem_nil t)
  | cons u us ih =>
    intro acc t ht hbad
    rcases List.mem_cons.mp ht with rfl | ht'
    · unfold tokenBad at hbad
      cases hp : parseToken t with
      | error e => exact ⟨e, by simp [parseLoop, hp]⟩
      | ok ps => rw [hp] at hbad; simp at hbad
    · cases hp : parseToken u with
      | error e => exact ⟨e, by simp [parseLoop, hp]⟩
      | ok ps =>
        simp only [parseLoop, hp]
        exact ih (acc ++ ps) t ht' hbad

theorem parseLoop_mem : ∀ (ts : List (List Char)) (acc res : List ℕ),
    parseLoop ts acc = .ok res →
    ∀ p ∈ res, p ∈ acc ∨ ∃ t ∈ ts, p ∈ tokenPorts t := by
  intro ts
  induction ts with
  | nil =>
    intro acc res h p hp
    simp only [parseLoop, Except.ok.injEq] at h
    subst h
    exact Or.inl hp
  | cons u us ih =>
    intro acc res h p hp
    cases hu : parseToken u with
    | error e =>
      simp only [parseLoop, hu] at h
      exact absurd h (by simp)
    | ok ps =>
      simp only [parseLoop, hu] at h
      rcases ih (acc ++ ps) res h p hp with hacc | ⟨t, htm, htp⟩
      · rcases List.mem_append.mp hacc with h1 | h2
        · exact Or.inl h1
        · refine Or.inr ⟨u, List.mem_cons_self u us, ?_⟩
          unfold tokenPorts
          rw [hu]
          exact h2
      · exact Or.inr ⟨t, List.mem_cons_of_mem u htm, htp⟩

theorem parseLoop_find_error : ∀ (ts : List (List Char)) (acc : List ℕ)
    (t : List Char), ts.find? tokenBad = some t →
    parseLoop ts acc = .error (tokenMsg t) := by
  intro ts
  induction ts with
  | nil => intro acc t h; simp [List.find?] at h
  | cons u us ih =>
    intro acc t h
    by_cases hb : tokenBad u = true
    · rw [List.find?_cons_of_pos _ hb] at h
      injection h with h
      subst h
      unfold tokenBad at hb
      cases hp : parseToken u with
      | error e =>
        have hmsg := parseToken_error_msg hp
        simp only [parseLoop, hp, hmsg]
      | ok ps => rw [hp] at hb; simp at hb
    · have hb' : tokenBad u = false := by
        cases hbu : tokenBad u
        · rfl
        · exact absurd hbu hb
      rw [List.find?_cons_of_neg _ hb] at h
      have hgood : parseToken u = .ok (tokenPorts u) := parseToken_ok_of_good hb'
      simp only [parseLoop, hgood]
      exact ih _ t h

/-- When every token is valid, `parse_ports` succeeds with the sorted
deduplicated union of the token contributions. -/
theorem parse_ports_ok_of_good (s : String)
    (hgood : ∀ t ∈ tokens s, tokenBad t = false) :
    parse_ports s = .ok (sortDedup (concatPorts (tokens s))) := by
  unfold parse_ports
  rw [parseLoop_ok_of_good (tokens s) [] hgood]
  rw [List.nil_append]

/-! ### Lemmas about the prober and the coordinator loop -/

theorem try_connect_port (env : ConnEnv) (host : String) (port timeoutMs : ℕ)
    (banner : Bool) : (try_connect env host port timeoutMs banner).1.port = port := by
  unfold try_connect
  split <;> rfl

theorem scan_host_fst_map_port (envOf : ℕ → ConnEnv) (host : String)
    (timeoutMs : ℕ) (banner : Bool) : ∀ order : List ℕ,
    (scan_host envOf host timeoutMs banner order).1.map (fun r => r.port) = order := by
  intro order
  induction order with
  | nil => simp [scan_host]
  | cons p rest ih => simp [scan_host, try_connect_port, ih]

theorem scan_host_snd_eq (envOf : ℕ → ConnEnv) (host : String)
    (timeoutMs : ℕ) (banner : Bool) : ∀ order : List ℕ,
    (scan_host envOf host timeoutMs banner order).2 =
      ((scan_host envOf host timeoutMs banner order).1.filter
          (fun r => r.is_open)).map (openLine host) := by
  intro order
  induction order with
  | nil => simp [scan_host]
  | cons p rest ih =>
    simp only [scan_host]
    cases hio : (try_connect (envOf p) host p timeoutMs banner).1.is_open with
    | false => simp [hio, ih]
    | true => simp [hio, ih]

theorem scan_host_mem_eq (envOf : ℕ → ConnEnv) (host : String)
    (timeoutMs : ℕ) (banner : Bool) : ∀ order : List ℕ,
    ∀ r ∈ (scan_host envOf host timeoutMs banner order).1,
      r = (try_connect (envOf r.port) host r.port timeoutMs banner).1 := by
  intro order
  induction order with
  | nil => intro r hr; simp [scan_host] at hr
  | cons p rest ih =>
    intro r hr
    simp only [scan_host, List.mem_cons] at hr
    rcases hr with rfl | hr
    · rw [try_connect_port]
    · exact ih r hr

/-! ### Lemmas about the concurrency limiter -/

theorem card_admitted_update_admitted {n : ℕ} (f : Fin n → TaskPhase) (i : Fin n)
    (hi : f i ≠ TaskPhase.admitted) :
    (Finset.univ.filter fun j =>
        Function.update f i TaskPhase.admitted j = TaskPhase.admitted).card =
      (Finset.univ.filter fun j => f j = TaskPhase.admitted).card + 1 := by
  have heq : (Finset.univ.filter fun j =>
      Function.update f i TaskPhase.admitted j = TaskPhase.admitted) =
      insert i (Finset.univ.filter fun j => f j = TaskPhase.admitted) := by
    ext j
    rcases eq_or_ne j i with rfl | hj
    · simp [Function.update_same]
    · simp [Function.update_noteq hj, hj]
  rw [heq, Finset.card_insert_of_not_mem (by simp [hi])]

theorem card_admitted_update_completed {n : ℕ} (f : Fin n → TaskPhase) (i : Fin n)
    (hi : f i = TaskPhase.admitted) :
    (Finset.univ.filter fun j =>
        Function.update f i TaskPhase.completed j = TaskPhase.admitted).card =
      (Finset.univ.filter fun j => f j = TaskPhase.admitted).card - 1 := by
  have heq : (Finset.univ.filter fun j =>
      Function.update f i TaskPhase.completed j = TaskPhase.admitted) =
      (Finset.univ.filter fun j => f j = TaskPhase.admitted).erase i := by
    ext j
    rcases eq_or_ne j i with rfl | hj
    · simp [Function.update_same]
    · simp [Function.update_noteq hj, hj]
  rw [heq, Finset.card_erase_of_mem (by simp [hi])]

theorem card_admitted_pos {n : ℕ} (f : Fin n → TaskPhase) (i : Fin n)
    (hi : f i = TaskPhase.admitted) :
    0 < (Finset.univ.filter fun j => f j = TaskPhase.admitted).card :=
  Finset.card_pos.mpr ⟨i, by simp [hi]⟩

/-- Slot-count invariant of the limiter: acquisitions and releases happen in
matched pairs, so the free slots plus the in-flight probes always equal the
configured concurrency limit. -/
theorem reaches_sem_inFlight {n conc : ℕ} {s : CoordState n}
    (h : Reaches n conc s) : s.sem + inFlight s = conc := by
  unfold Reaches at h
  induction h with
  | refl => simp [initState, inFlight]
  | @tail b c hab hstep ih =>
    cases hstep with
    | acquire i hp hs =>
      have hcard := card_admitted_update_admitted b.phase i (by rw [hp]; simp)
      simp only [inFlight] at ih ⊢
      rw [hcard]
      omega
    | release i hp =>
      have hcard := card_admitted_update_completed b.phase i hp
      have hpos := card_admitted_pos b.phase i hp
      simp only [inFlight] at ih ⊢
      rw [hcard]
      omega

/-! ### The claims -/

/-- C1: for every address, port, timeout and banner flag, if the TCP connect
attempt fails in any way (timeout, refusal, or any other I/O failure —
`connectOk = false`), `try_connect` propagates no error and returns exactly
the outcome `(port, open = false, banner = "")`. -/
theorem try_connect_failure_uniform (env : ConnEnv) (host : String)
    (port timeoutMs : ℕ) (banner : Bool) (h : env.connectOk = false) :
    (try_connect env host port timeoutMs banner).1 = ⟨port, false, ""⟩ := by
  simp [try_connect, h]

theorem try_connect_failure_uniform_witness :
    (ConnEnv.mk false true (some "ignored") true).connectOk = false ∧
      (try_connect ⟨false, true, some "ignored", true⟩ "example.com" 22 1000 true).1 =
        ⟨22, false, ""⟩ :=
  ⟨rfl, try_connect_failure_uniform ⟨false, true, some "ignored", true⟩
    "example.com" 22 1000 true rfl⟩

/-- C3: whenever `parse_ports` succeeds, the returned sequence is strictly
increasing, duplicate-free, and every element lies in `[1, 65535]`. -/
theorem parse_ports_strictly_increasing_in_range (s : String) (l : List ℕ)
    (h : parse_ports s = .ok l) :
    l.Sorted (· < ·) ∧ l.Nodup ∧ ∀ p ∈ l, 1 ≤ p ∧ p ≤ 65535 := by
  unfold parse_ports at h
  cases hpl : parseLoop (tokens s) [] with
  | error e => rw [hpl] at h; exact absurd h (by simp)
  | ok acc =>
    rw [hpl] at h
    simp only [Except.ok.injEq] at h
    subst h
    refine ⟨sortDedup_sorted acc, (sortDedup_sorted acc).nodup, ?_⟩
    intro p hp
    rw [mem_sortDedup] at hp
    rcases parseLoop_mem (tokens s) [] acc hpl p hp with h0 | ⟨t, htm, htp⟩
    · exact absurd h0 (List.not_mem_nil p)
    · unfold tokenPorts at htp
      cases hpt : parseToken t with
      | error e => rw [hpt] at htp; simp at htp
      | ok ps =>
        rw [hpt] at htp
        exact parseToken_mem_bounds hpt p htp

theorem parse_ports_strictly_increasing_in_range_witness :
    parse_ports "22,80,443" = .ok [22, 80, 443] ∧
      (([22, 80, 443] : List ℕ).Sorted (· < ·) ∧ ([22, 80, 443] : List ℕ).Nodup ∧
        ∀ p ∈ ([22, 80, 443] : List ℕ), 1 ≤ p ∧ p ≤ 65535) :=
  ⟨rfl, parse_ports_strictly_increasing_in_range "22,80,443" [22, 80, 443] rfl⟩

/-- C5: once the connect has succeeded, the release of the connection cannot
change the computed outcome: the probe reports `open = true` with the banner
collected before the close, and the result is invariant under the success or
failure of `wait_closed` (whose failure the source discards with
`except Exception: pass`; the preceding `writer.close()` call does not
raise, see `ConnEnv`). -/
theorem try_connect_release_failure_ignored (env : ConnEnv) (host : String)
    (port timeoutMs : ℕ) (banner : Bool) (h : env.connectOk = true) :
    (try_connect env host port timeoutMs banner).1.is_open = true ∧
      (try_connect env host port timeoutMs banner).1.banner_text =
        collectedBanner env host port banner ∧
      try_connect { env with waitClosedOk := false } host port timeoutMs banner =
        try_connect { env with waitClosedOk := true } host port timeoutMs banner := by
  obtain ⟨c, d, r, w⟩ := env
  have hc : c = true := h
  subst hc
  refine ⟨?_, ?_, rfl⟩
  · simp [try_connect]
  · simp [try_connect]

theorem try_connect_release_failure_ignored_witness :
    (ConnEnv.mk true true (some " SSH-2.0-test\r\n") false).connectOk = true ∧
      ((try_connect ⟨true, true, some " SSH-2.0-test\r\n", false⟩ "h" 22 1000 true).1.is_open
          = true ∧
        (try_connect ⟨true, true, some " SSH-2.0-test\r\n", false⟩ "h" 22 1000 true).1.banner_text
          = collectedBanner ⟨true, true, some " SSH-2.0-test\r\n", false⟩ "h" 22 true ∧
        try_connect { ConnEnv.mk true true (some " SSH-2.0-test\r\n") false with
            waitClosedOk := false } "h" 22 1000 true =
          try_connect { ConnEnv.mk true true (some " SSH-2.0-test\r\n") false with
            waitClosedOk := true } "h" 22 1000 true) :=
  ⟨rfl, try_connect_release_failure_ignored ⟨true, true, some " SSH-2.0-test\r\n", false⟩
    "h" 22 1000 true rfl⟩

/-- C6: when the connect succeeded and banner collection is on, any failure
inside the banner attempt (write-flush failure, read timeout) leaves the
banner empty and never downgrades `open`: the outcome is
`(port, open = true, banner = "")`. -/
theorem try_connect_banner_failure_keeps_open (env : ConnEnv) (host : String)
    (port timeoutMs : ℕ) (hc : env.connectOk = true)
    (hb : (bannerRead env host port).1 = none) :
    (try_connect env host port timeoutMs true).1 = ⟨port, true, ""⟩ := by
  simp [try_connect, hc, collectedBanner, hb]

theorem try_connect_banner_failure_keeps_open_witness :
    ((ConnEnv.mk true true none true).connectOk = true ∧
        (bannerRead ⟨true, true, none, true⟩ "h" 22).1 = none ∧
        (try_connect ⟨true, true, none, true⟩ "h" 22 1000 true).1 = ⟨22, true, ""⟩) ∧
      ((ConnEnv.mk true false (some "late data") true).connectOk = true ∧
        (bannerRead ⟨true, false, some "late data", true⟩ "h" 8080).1 = none ∧
        (try_connect ⟨true, false, some "late data", true⟩ "h" 8080 1000 true).1 =
          ⟨8080, true, ""⟩) :=
  ⟨⟨rfl, rfl, try_connect_banner_failure_keeps_open ⟨true, true, none, true⟩
      "h" 22 1000 rfl rfl⟩,
    ⟨rfl, rfl, try_connect_banner_failure_keeps_open ⟨true, false, some "late data", true⟩
      "h" 8080 1000 rfl rfl⟩⟩

/-- C7: an input containing an invalid token (not an integer, a single port
outside `[1, 65535]`, or a range `A-B` with `A < 1`, `B > 65535` or
`A > B`) makes `parse_ports` fail with a configuration error whose message
names the (first) offending token; no port list is returned. -/
theorem parse_ports_invalid_token_error (s : String) (t : List Char)
    (h : (tokens s).find? tokenBad = some t) :
    parse_ports s = .error (tokenMsg t) ∧ t <:+ (tokenMsg t).data := by
  refine ⟨?_, ?_⟩
  · unfold parse_ports
    rw [parseLoop_find_error (tokens s) [] t h]
  · unfold tokenMsg
    by_cases hc : t.contains '-'
    · rw [if_pos hc]
      exact ⟨("Invalid port range: " : String).data, by rw [String.data_append]⟩
    · rw [if_neg hc]
      exact ⟨("Invalid port: " : String).data, by rw [String.data_append]⟩

theorem parse_ports_invalid_token_error_witness :
    ((tokens "abc").find? tokenBad = some "abc".data ∧
        parse_ports "abc" = .error (tokenMsg "abc".data) ∧
        "abc".data <:+ (tokenMsg "abc".data).data) ∧
      ((tokens "70000").find? tokenBad = some "70000".data ∧
        parse_ports "70000" = .error (tokenMsg "70000".data) ∧
        "70000".data <:+ (tokenMsg "70000".data).data) ∧
      ((tokens "0-10").find? tokenBad = some "0-10".data ∧
        parse_ports "0-10" = .error (tokenMsg "0-10".data) ∧
        "0-10".data <:+ (tokenMsg "0-10".data).data) :=
  ⟨⟨rfl, parse_ports_invalid_token_error "abc" "abc".data rfl⟩,
    ⟨rfl, parse_ports_invalid_token_error "70000" "70000".data rfl⟩,
    ⟨rfl, parse_ports_invalid_token_error "0-10" "0-10".data rfl⟩⟩

/-- C8: an input with no valid tokens after splitting on commas and trimming
(the empty string, strings of commas and whitespace) yields the empty
sequence, not an error. -/
theorem parse_ports_no_tokens_ok_empty (s : String) (h : tokens s = []) :
    parse_ports s = .ok [] := by
  unfold parse_ports
  rw [h]
  rfl

theorem parse_ports_no_tokens_ok_empty_witness :
    (tokens "" = [] ∧ parse_ports "" = .ok []) ∧
      (tokens " ,, " = [] ∧ parse_ports " ,, " = .ok []) :=
  ⟨⟨rfl, parse_ports_no_tokens_ok_empty "" rfl⟩,
    ⟨rfl, parse_ports_no_tokens_ok_empty " ,, " rfl⟩⟩

/-- C10: `parse_ports` is insensitive to order and repetition of its comma
tokens: two inputs whose token lists have the same members produce identical
sequences, or both fail when an offending token is shared. -/
theorem parse_ports_token_set_insensitive (s₁ s₂ : String)
    (h12 : ∀ t ∈ tokens s₁, t ∈ tokens s₂)
    (h21 : ∀ t ∈ tokens s₂, t ∈ tokens s₁) :
    (∃ l, parse_ports s₁ = .ok l ∧ parse_ports s₂ = .ok l) ∨
      (∃ m₁, ∃ m₂, parse_ports s₁ = .error m₁ ∧ parse_ports s₂ = .error m₂) := by
  by_cases hbad : ∃ t ∈ tokens s₁, tokenBad t = true
  · obtain ⟨t, ht, htb⟩ := hbad
    obtain ⟨m₁, hm₁⟩ := parseLoop_error_of_bad (tokens s₁) [] t ht htb
    obtain ⟨m₂, hm₂⟩ := parseLoop_error_of_bad (tokens s₂) [] t (h12 t ht) htb
    refine Or.inr ⟨m₁, m₂, ?_, ?_⟩
    · unfold parse_ports
      rw [hm₁]
    · unfold parse_ports
      rw [hm₂]
  · push_neg at hbad
    have hgood₁ : ∀ t ∈ tokens s₁, tokenBad t = false := by
      intro t ht
      simpa using hbad t ht
    have hgood₂ : ∀ t ∈ tokens s₂, tokenBad t = false := fun t ht => hgood₁ t (h21 t ht)
    have hmemeq : sortDedup (concatPorts (tokens s₂)) =
        sortDedup (concatPorts (tokens s₁)) := by
      apply sorted_mem_ext (sortDedup_sorted _) (sortDedup_sorted _)
      intro x
      rw [mem_sortDedup, mem_sortDedup, mem_concatPorts, mem_concatPorts]
      constructor
      · rintro ⟨t, ht, hx⟩
        exact ⟨t, h21 t ht, hx⟩
      · rintro ⟨t, ht, hx⟩
        exact ⟨t, h12 t ht, hx⟩
    refine Or.inl ⟨sortDedup (concatPorts (tokens s₁)),
      parse_ports_ok_of_good s₁ hgood₁, ?_⟩
    rw [parse_ports_ok_of_good s₂ hgood₂, hmemeq]

theorem parse_ports_token_set_insensitive_witness :
    (∀ t ∈ tokens "8000-8002,8001", t ∈ tokens "8001,8000-8002,8001") ∧
      (∀ t ∈ tokens "8001,8000-8002,8001", t ∈ tokens "8000-8002,8001") ∧
      ((∃ l, parse_ports "8000-8002,8001" = .ok l ∧
          parse_ports "8001,8000-8002,8001" = .ok l) ∨
        (∃ m₁, ∃ m₂, parse_ports "8000-8002,8001" = .error m₁ ∧
          parse_ports "8001,8000-8002,8001" = .error m₂)) :=
  ⟨by decide, by decide,
    parse_ports_token_set_insensitive "8000-8002,8001" "8001,8000-8002,8001"
      (by decide) (by decide)⟩

/-- C2: for every port list, `scan_host` returns exactly one outcome per
port (in completion order), emits an output line exactly for each completion
with `open = true`, each such line containing the port and the banner text
in parentheses when the banner is nonempty, and every outcome is the probe
outcome of its port. -/
theorem scan_host_outcomes_and_lines (envOf : ℕ → ConnEnv) (host : String)
    (timeoutMs : ℕ) (banner : Bool) (ports order : List ℕ)
    (hperm : order.Perm ports) (hnd : ports.Nodup) :
    (scan_host envOf host timeoutMs banner order).1.length = ports.length ∧
      (∀ p ∈ ports,
        ((scan_host envOf host timeoutMs banner order).1.filter
            (fun r => r.port == p)).length = 1) ∧
      (scan_host envOf host timeoutMs banner order).2 =
        ((scan_host envOf host timeoutMs banner order).1.filter
            (fun r => r.is_open)).map (openLine host) ∧
      (∀ r ∈ (scan_host envOf host timeoutMs banner order).1,
        r = (try_connect (envOf r.port) host r.port timeoutMs banner).1) ∧
      (∀ r ∈ (scan_host envOf host timeoutMs banner order).1, r.is_open = true →
        (toString r.port).data <:+: (openLine host r).data ∧
        (r.banner_text ≠ "" →
          ("(banner: " ++ r.banner_text ++ ")").data <:+: (openLine host r).data)) := by
  have hmap := scan_host_fst_map_port envOf host timeoutMs banner order
  refine ⟨?_, ?_, scan_host_snd_eq envOf host timeoutMs banner order,
    scan_host_mem_eq envOf host timeoutMs banner order, ?_⟩
  · have hlen := congrArg List.length hmap
    rw [List.length_map] at hlen
    rw [hlen, hperm.length_eq]
  · intro p hp
    calc ((scan_host envOf host timeoutMs banner order).1.filter
            (fun r => r.port == p)).length
        = (((scan_host envOf host timeoutMs banner order).1.map
              (fun r => r.port)).filter (fun q => q == p)).length := by
          rw [List.filter_map, List.length_map]
          rfl
      _ = (order.filter (fun q => q == p)).length := by rw [hmap]
      _ = (ports.filter (fun q => q == p)).length := by
          rw [← List.countP_eq_length_filter, ← List.countP_eq_length_filter]
          exact hperm.countP_eq _
      _ = 1 := by
          rw [← List.countP_eq_length_filter]
          exact List.count_eq_one_of_mem hnd hp
  · intro r hr hopen
    constructor
    · unfold openLine
      by_cases hb : r.banner_text = ""
      · rw [if_pos hb]
        exact ⟨(host ++ ":").data, (" OPEN" : String).data,
          by simp [String.data_append]⟩
      · rw [if_neg hb]
        exact ⟨(host ++ ":").data,
          (" OPEN  (banner: " ++ r.banner_text ++ ")" : String).data,
          by simp [String.data_append]⟩
    · intro hb
      unfold openLine
      rw [if_neg hb]
      refine ⟨(host ++ ":" ++ toString r.port ++ " OPEN  ").data, [], ?_⟩
      have hsplit : (" OPEN  (banner: " : String).data =
          (" OPEN  " : String).data ++ ("(banner: " : String).data := rfl
      simp [String.data_append, hsplit]

theorem scan_host_outcomes_and_lines_witness :
    ([80, 22, 21] : List ℕ).Perm [21, 22, 80] ∧
      ([21, 22, 80] : List ℕ).Nodup ∧
      (scan_host onlyPort22Open "h" 1000 false [80, 22, 21]).1.length = 3 ∧
      ((scan_host onlyPort22Open "h" 1000 false [80, 22, 21]).1.filter
          (fun r => r.is_open)).length = 1 ∧
      (scan_host onlyPort22Open "h" 1000 false [80, 22, 21]).2 = ["h:22 OPEN"] :=
  ⟨by decide, by decide,
    by
      have h := (scan_host_outcomes_and_lines onlyPort22Open "h" 1000 false
        [21, 22, 80] [80, 22, 21] (by decide) (by decide)).1
      simpa using h,
    rfl, rfl⟩

/-- C4 (amended): when banner collection is on and the connect succeeded,
the probe classifies the port as HTTP-like exactly when it is in
`{80, 443, 8000, 8080, 8443}`; for an HTTP-like port it writes a request
containing the line `GET / HTTP/1.0` and a `Host` header carrying the host
string the prober was invoked with (in the main flow this is the RESOLVED
address, not necessarily the original user-supplied host), bounds the
write-flush by 0.5s (500 ms) and reads up to 2048 bytes bounded by 1.0s
(1000 ms); for a non-HTTP-like port it writes nothing and reads up to 1024
bytes bounded by 0.5s (500 ms). -/
theorem try_connect_banner_protocol (env : ConnEnv) (host : String)
    (port timeoutMs : ℕ) (hc : env.connectOk = true) :
    (port ∈ HTTP_PORTS ↔
        port = 80 ∨ port = 443 ∨ port = 8000 ∨ port = 8080 ∨ port = 8443) ∧
      (port ∈ HTTP_PORTS →
        NetEvent.write (httpRequest host) ∈
          (try_connect env host port timeoutMs true).2 ∧
        ("GET / HTTP/1.0" : String).data <:+: (httpRequest host).data ∧
        ("Host: " ++ host).data <:+: (httpRequest host).data ∧
        NetEvent.drain 500 ∈ (try_connect env host port timeoutMs true).2 ∧
        (env.drainOk = true →
          NetEvent.read 2048 1000 ∈ (try_connect env host port timeoutMs true).2)) ∧
      (port ∉ HTTP_PORTS →
        (∀ d, NetEvent.write d ∉ (try_connect env host port timeoutMs true).2) ∧
        NetEvent.read 1024 500 ∈ (try_connect env host port timeoutMs true).2) := by
  refine ⟨?_, ?_, ?_⟩
  · simp only [HTTP_PORTS, Finset.mem_insert, Finset.mem_singleton]
    tauto
  · intro hmem
    refine ⟨?_, ?_, ?_, ?_, ?_⟩
    · cases hd : env.drainOk with
      | false => simp [try_connect, hc, bannerRead, hmem, hd]
      | true => simp [try_connect, hc, bannerRead, hmem, hd]
    · refine ⟨[], ("\r\nHost: " ++ host ++ "\r\nUser-Agent: tcp-scanner\r\n\r\n").data, ?_⟩
      have h1 : ("GET / HTTP/1.0\r\nHost: " : String).data =
          ("GET / HTTP/1.0" : String).data ++ ("\r\nHost: " : String).data := rfl
      simp [httpRequest, String.data_append, h1]
    · refine ⟨("GET / HTTP/1.0\r\n" : String).data,
        ("\r\nUser-Agent: tcp-scanner\r\n\r\n" : String).data, ?_⟩
      have h2 : ("GET / HTTP/1.0\r\nHost: " : String).data =
          ("GET / HTTP/1.0\r\n" : String).data ++ ("Host: " : String).data := rfl
      simp [httpRequest, String.data_append, h2]
    · cases hd : env.drainOk with
      | false => simp [try_connect, hc, bannerRead, hmem, hd]
      | true => simp [try_connect, hc, bannerRead, hmem, hd]
    · intro hd
      simp [try_connect, hc, bannerRead, hmem, hd]
  · intro hmem
    constructor
    · intro d
      simp [try_connect, hc, bannerRead, hmem]
    · simp [try_connect, hc, bannerRead, hmem]

theorem try_connect_banner_protocol_witness :
    (ConnEnv.mk true true (some "HTTP/1.0 200 OK") true).connectOk = true ∧
      ((80 ∈ HTTP_PORTS ↔
          80 = 80 ∨ 80 = 443 ∨ 80 = 8000 ∨ 80 = 8080 ∨ 80 = 8443) ∧
        (80 ∈ HTTP_PORTS →
          NetEvent.write (httpRequest "93.184.216.34") ∈
            (try_connect ⟨true, true, some "HTTP/1.0 200 OK", true⟩
              "93.184.216.34" 80 1000 true).2 ∧
          ("GET / HTTP/1.0" : String).data <:+: (httpRequest "93.184.216.34").data ∧
          ("Host: " ++ "93.184.216.34").data <:+: (httpRequest "93.184.216.34").data ∧
          NetEvent.drain 500 ∈
            (try_connect ⟨true, true, some "HTTP/1.0 200 OK", true⟩
              "93.184.216.34" 80 1000 true).2 ∧
          ((ConnEnv.mk true true (some "HTTP/1.0 200 OK") true).drainOk = true →
            NetEvent.read 2048 1000 ∈
              (try_connect ⟨true, true, some "HTTP/1.0 200 OK", true⟩
                "93.184.216.34" 80 1000 true).2)) ∧
        (80 ∉ HTTP_PORTS →
          (∀ d, NetEvent.write d ∉
            (try_connect ⟨true, true, some "HTTP/1.0 200 OK", true⟩
              "93.184.216.34" 80 1000 true).2) ∧
          NetEvent.read 1024 500 ∈
            (try_connect ⟨true, true, some "HTTP/1.0 200 OK", true⟩
              "93.184.216.34" 80 1000 true).2)) :=
  ⟨rfl, try_connect_banner_protocol ⟨true, true, some "HTTP/1.0 200 OK", true⟩
    "93.184.216.34" 80 1000 rfl⟩

/-- C4 counterexample: `main_async` (src/main.py lines 130-133) hands
`scan_host` the RESOLVED address, so every probe builds its `Host` header
from it.  With a resolver that maps `example.com` to `93.184.216.34` (the
normal successful-resolution case), the only request written on port 80
carries `Host: 93.184.216.34` and does not contain the original
user-supplied host string `example.com` — refuting the claim that the
header carries the original host. -/
theorem host_header_not_original_counterexample :
    resolve_host (fun h => if h = "example.com" then some "93.184.216.34" else none)
        "example.com" = "93.184.216.34" ∧
      ((try_connect ⟨true, true, some "HTTP/1.0 200 OK", true⟩
          (resolve_host
            (fun h => if h = "example.com" then some "93.184.216.34" else none)
            "example.com")
          80 1000 true).2.filterMap
          (fun e => match e with | NetEvent.write d => some d | _ => none)) =
        [httpRequest "93.184.216.34"] ∧
      ¬ (("Host: " ++ "example.com").data <:+: (httpRequest "93.184.216.34").data) :=
  ⟨rfl, rfl, by decide⟩

/-- C9: at no point during a scan run are more than `conc` probe tasks
simultaneously between Admitted and Completed: the counting admission gate
(the semaphore) caps the in-flight probes at the configured concurrency
limit in every reachable state. -/
theorem scan_concurrency_cap (n conc : ℕ) (s : CoordState n)
    (h : Reaches n conc s) : inFlight s ≤ conc := by
  have hinv := reaches_sem_inFlight h
  omega

theorem scan_concurrency_cap_witness :
    Reaches 3 2 ⟨(initState 3 2).sem - 1,
        Function.update (initState 3 2).phase 0 TaskPhase.admitted⟩ ∧
      inFlight (⟨(initState 3 2).sem - 1,
        Function.update (initState 3 2).phase 0 TaskPhase.admitted⟩ : CoordState 3) ≤ 2 := by
  have hr : Reaches 3 2 ⟨(initState 3 2).sem - 1,
      Function.update (initState 3 2).phase 0 TaskPhase.admitted⟩ :=
    Relation.ReflTransGen.single (CoordStep.acquire (initState 3 2) 0 rfl (by decide))
  exact ⟨hr, scan_concurrency_cap 3 2 _ hr⟩

end PortScanner
